import Mathlib

/-!
Verification of the enterprise-rag ingestion core: a shallow embedding of
`storage/metadata.py`, `storage/raw_storage.py`, `ingest/processor.py` and
`ingest/vector_manager.py`, with theorems about the metadata serialization,
the raw store's batch manifests, binary upload storage, slack batch
processing, the chunking window, and the vector index lifecycle.
-/

namespace EnterpriseRag

/-- Little-endian decimal digits of a natural number; the fuel argument
bounds the recursion (the number itself is always enough fuel). -/
def natDigitsAux : Nat → Nat → List Nat
  | 0, _ => []
  | _ + 1, 0 => []
  | fuel + 1, n + 1 => (n + 1) % 10 :: natDigitsAux fuel ((n + 1) / 10)

/-- Little-endian decimal digits of a natural number (`[]` for zero). -/
def natDigits (n : Nat) : List Nat := natDigitsAux n n

/-- Value of a little-endian decimal digit list. -/
def fromDigits : List Nat → Nat
  | [] => 0
  | d :: ds => d + 10 * fromDigits ds

/-- The character for one decimal digit. -/
def digitChar10 (d : Nat) : Char := Char.ofNat (48 + d)

/-- The decimal digit of one character. -/
def charDigit10 (c : Char) : Nat := c.toNat - 48

/-- Decimal rendering of a natural number, used as the model of every textual
encoding of a numeric value in the embedding (timestamps, hashes). -/
def natToDecimalString (n : Nat) : String :=
  if n = 0 then "0" else String.mk (((natDigits n).map digitChar10).reverse)

/-- Decimal parsing, the inverse of `natToDecimalString` on its outputs. -/
def decimalStringToNat (s : String) : Nat :=
  fromDigits ((s.data.map charDigit10).reverse)

theorem fromDigits_natDigitsAux (fuel : Nat) :
    ∀ n : Nat, n ≤ fuel → fromDigits (natDigitsAux fuel n) = n := by
  induction fuel with
  | zero => intro n h; interval_cases n; rfl
  | succ fuel ih =>
    intro n h
    match n with
    | 0 => rfl
    | m + 1 =>
      have hdiv : (m + 1) / 10 ≤ fuel := by omega
      simp only [natDigitsAux, fromDigits, ih _ hdiv]
      omega

theorem fromDigits_natDigits (n : Nat) : fromDigits (natDigits n) = n :=
  fromDigits_natDigitsAux n n (Nat.le_refl n)

theorem natDigitsAux_lt (fuel : Nat) :
    ∀ n d : Nat, d ∈ natDigitsAux fuel n → d < 10 := by
  induction fuel with
  | zero => intro n d h; simp [natDigitsAux] at h
  | succ fuel ih =>
    intro n d h
    match n with
    | 0 => simp [natDigitsAux] at h
    | m + 1 =>
      simp only [natDigitsAux, List.mem_cons] at h
      rcases h with h | h
      · omega
      · exact ih _ _ h

theorem charDigit10_digitChar10 (d : Nat) (h : d < 10) :
    charDigit10 (digitChar10 d) = d := by
  interval_cases d <;> decide

theorem map_id_of_mem {α : Type} (f : α → α) :
    ∀ l : List α, (∀ x ∈ l, f x = x) → l.map f = l
  | [], _ => rfl
  | a :: l, h => by
    have h1 := h a (List.mem_cons_self a l)
    have h2 := map_id_of_mem f l (fun x hx => h x (List.mem_cons_of_mem a hx))
    simp [h1, h2]

theorem decimalString_roundTrip (n : Nat) :
    decimalStringToNat (natToDecimalString n) = n := by
  unfold decimalStringToNat natToDecimalString
  by_cases h0 : n = 0
  · subst h0; rfl
  · simp only [h0, if_false]
    rw [List.map_reverse, List.reverse_reverse, List.map_map]
    have hmap : (natDigits n).map (charDigit10 ∘ digitChar10) = natDigits n :=
      map_id_of_mem _ _ (fun d hd =>
        charDigit10_digitChar10 d (natDigitsAux_lt n n d hd))
    rw [hmap, fromDigits_natDigits]

/-- A JSON value, the universe of everything Python serializes with
`json.dump` in the storage layer (an object is an ordered list of
string-keyed fields, as `json.load` preserves insertion order). -/
inductive JValue where
  | null : JValue
  | bool (b : Bool) : JValue
  | num (n : Int) : JValue
  | str (s : String) : JValue
  | arr (items : List JValue) : JValue
  | obj (fields : List (String × JValue)) : JValue

/-- `SourceType` of `storage/metadata.py`: the closed set of data origins. -/
inductive SourceType where
  | slack | confluence | pdf | markdown | text | unknown
deriving DecidableEq

/-- The `.value` string of each `SourceType` member. -/
def SourceType.value : SourceType → String
  | .slack => "slack"
  | .confluence => "confluence"
  | .pdf => "pdf"
  | .markdown => "markdown"
  | .text => "text"
  | .unknown => "unknown"

/-- Python `SourceType(s)`: enum lookup by value, failing on any other
string. -/
def SourceType.ofValue (s : String) : Option SourceType :=
  if s = "slack" then some .slack
  else if s = "confluence" then some .confluence
  else if s = "pdf" then some .pdf
  else if s = "markdown" then some .markdown
  else if s = "text" then some .text
  else if s = "unknown" then some .unknown
  else none

theorem SourceType.ofValue_value (st : SourceType) :
    SourceType.ofValue st.value = some st := by
  cases st <;> rfl

/-- Model of a Python `datetime` value: an opaque tick count whose
`isoformat` serialization is an injective textual encoding with
`fromisoformat` as its exact inverse, the contract
`datetime.fromisoformat(d.isoformat()) == d` that the code relies on. -/
structure Datetime where
  ticks : Nat
deriving DecidableEq

/-- Serialize a `Datetime` to its textual form. -/
def Datetime.isoformat (d : Datetime) : String := natToDecimalString d.ticks

/-- Parse the textual form of a `Datetime` back. -/
def Datetime.fromisoformat (s : String) : Datetime := ⟨decimalStringToNat s⟩

theorem Datetime.fromisoformat_isoformat (d : Datetime) :
    Datetime.fromisoformat d.isoformat = d := by
  cases d
  simp [Datetime.fromisoformat, Datetime.isoformat, decimalString_roundTrip]

/-- `DocumentMetadata` of `storage/metadata.py`: one record per ingested
unit; `extra` is the open string-keyed map of origin-specific attributes. -/
structure DocumentMetadata where
  source_type : SourceType
  source_id : String
  source_name : String
  ingested_at : Datetime
  source_timestamp : Option Datetime := none
  author : Option String := none
  title : Option String := none
  url : Option String := none
  extra : List (String × JValue) := []

/-- The dictionary produced by `DocumentMetadata.to_dict`: the same fields
with `source_type` replaced by its value string and the timestamps
serialized (`to_dict` writes `None` for an absent optional, hence the
`Option String` fields). -/
structure DocumentMetadataDict where
  source_type : String
  source_id : String
  source_name : String
  ingested_at : Option String
  source_timestamp : Option String
  author : Option String
  title : Option String
  url : Option String
  extra : List (String × JValue)

/-- `DocumentMetadata.to_dict`: `asdict` of the dataclass with
`source_type` replaced by its `.value` and both timestamps by their
`isoformat` (a `datetime` object is always truthy, so `ingested_at` is
always serialized; a `None` `source_timestamp` stays `None`). -/
def DocumentMetadata.to_dict (m : DocumentMetadata) : DocumentMetadataDict where
  source_type := m.source_type.value
  source_id := m.source_id
  source_name := m.source_name
  ingested_at := some m.ingested_at.isoformat
  source_timestamp := m.source_timestamp.map Datetime.isoformat
  author := m.author
  title := m.title
  url := m.url
  extra := m.extra

/-- `DocumentMetadata.from_dict`: parse `source_type` back through the enum
(raising, modeled as `none`, on an unknown value) and each present timestamp
through `fromisoformat`; a dict whose `ingested_at` is `None` cannot rebuild
the typed record (Python would construct an object violating the dataclass
annotation there). -/
def DocumentMetadata.from_dict (d : DocumentMetadataDict) : Option DocumentMetadata :=
  match SourceType.ofValue d.source_type, d.ingested_at with
  | some st, some ia =>
    some { source_type := st
           source_id := d.source_id
           source_name := d.source_name
           ingested_at := Datetime.fromisoformat ia
           source_timestamp := d.source_timestamp.map Datetime.fromisoformat
           author := d.author
           title := d.title
           url := d.url
           extra := d.extra }
  | _, _ => none

/-- C6: serializing any `DocumentMetadata` with `to_dict` and reconstructing
with `from_dict` yields the original value: the round-trip is lossless for
every field, including the open `extra` map. -/
theorem metadata_to_dict_from_dict_roundTrip (m : DocumentMetadata) :
    DocumentMetadata.from_dict (DocumentMetadata.to_dict m) = some m := by
  cases m with
  | mk st sid sname ia sts author title url extra =>
    simp only [DocumentMetadata.to_dict, DocumentMetadata.from_dict,
      SourceType.ofValue_value, Datetime.fromisoformat_isoformat]
    cases sts with
    | none => simp
    | some t => simp [Datetime.fromisoformat_isoformat]

/-- A JSON encoding of an optional string, as `json.dump` writes it. -/
def optStrJ : Option String → JValue
  | none => .null
  | some s => .str s

/-- The JSON object fields of a `DocumentMetadataDict`, in dataclass field
order, as `json.dump(metadata.to_dict(), ...)` writes them. -/
def DocumentMetadataDict.toJson (d : DocumentMetadataDict) : List (String × JValue) :=
  [("source_type", .str d.source_type),
   ("source_id", .str d.source_id),
   ("source_name", .str d.source_name),
   ("ingested_at", optStrJ d.ingested_at),
   ("source_timestamp", optStrJ d.source_timestamp),
   ("author", optStrJ d.author),
   ("title", optStrJ d.title),
   ("url", optStrJ d.url),
   ("extra", .obj d.extra)]

/-- What one file of a batch directory holds: a `json.dump` value, a text
write, or a binary write. -/
inductive FilePayload where
  | json (v : JValue)
  | text (s : String)
  | bytes (b : List Nat)

/-- A batch directory: its files, name to payload, in creation order. -/
structure BatchDir where
  files : List (String × FilePayload)

/-- Read a file of a batch directory by name. -/
def lookupFile : List (String × FilePayload) → String → Option FilePayload
  | [], _ => none
  | f :: fs, name => if f.1 = name then some f.2 else lookupFile fs name

/-- Write a file: `open(path, "w")` replaces an existing file of the same
name in place and otherwise creates a new one. -/
def writeFile : List (String × FilePayload) → String → FilePayload →
    List (String × FilePayload)
  | [], name, p => [(name, p)]
  | f :: fs, name, p =>
    if f.1 = name then (name, p) :: fs else f :: writeFile fs name p

theorem lookupFile_writeFile (files : List (String × FilePayload))
    (name m : String) (p : FilePayload) :
    lookupFile (writeFile files name p) m
      = if m = name then some p else lookupFile files m := by
  induction files with
  | nil =>
    by_cases h : m = name
    · subst h; simp [writeFile, lookupFile]
    · have hnm : ¬ (name = m) := fun hh => h hh.symm
      simp [writeFile, lookupFile, h, hnm]
  | cons f fs ih =>
    by_cases hf : f.1 = name
    · by_cases hm : m = name
      · subst hm; simp [writeFile, lookupFile, hf]
      · have hnm : ¬ (name = m) := fun hh => hm hh.symm
        have hfm : ¬ (f.1 = m) := fun hh => hm (hf ▸ hh : name = m).symm
        simp [writeFile, lookupFile, hf, hm, hnm, hfm]
    · by_cases hfm : f.1 = m
      · have hm : ¬ (m = name) := fun hh => hf (hh ▸ hfm : f.1 = name)
        simp [writeFile, lookupFile, hf, hfm, hm]
      · simp [writeFile, lookupFile, hf, hfm, ih]

/-- The sanitizer of `create_ingestion_batch` and `store_binary_file`:
keep alphanumeric characters, `-` and `_`, replace everything else by `_`
(Python `c.isalnum() or c in "-_"`, modeled over its ASCII behavior). -/
def sanitizeName (s : String) : String :=
  String.mk (s.data.map (fun c =>
    if c.isAlphanum || c = '-' || c = '_' then c else '_'))

/-- The sanitizer of `store_raw_document`, which additionally keeps `.`
(Python `c.isalnum() or c in "-_."`). -/
def sanitizeDocId (s : String) : String :=
  String.mk (s.data.map (fun c =>
    if c.isAlphanum || c = '-' || c = '_' || c = '.' then c else '_'))

/-- `RawDataStore.create_ingestion_batch`: allocate a batch directory named
`{timestamp}` or `{timestamp}_{sanitized name}` holding only the manifest
`metadata.json` with `source_type`, `batch_name`, `created_at` and an empty
`documents` list; returns the directory name and the directory. -/
def create_ingestion_batch (source_type : SourceType)
    (batch_name : Option String) (now : Nat) : String × BatchDir :=
  let dirName := match batch_name with
    | some nm => natToDecimalString now ++ "_" ++ sanitizeName nm
    | none => natToDecimalString now
  let manifest : JValue := .obj
    [("source_type", .str source_type.value),
     ("batch_name", optStrJ batch_name),
     ("created_at", .str (natToDecimalString now)),
     ("documents", .arr [])]
  (dirName, { files := [("metadata.json", .json manifest)] })

/-- The raw content given to `store_raw_document`: a JSON dict or list, a
text string, or raw bytes — the cases the Python branches distinguish. -/
inductive RawContent where
  | jsonDict (fields : List (String × JValue))
  | jsonList (items : List JValue)
  | str (s : String)
  | bytes (b : List Nat)

/-- An error raised by a storage operation. -/
inductive StoreError where
  /-- Binary-mode write of a value that is not bytes. -/
  | typeError
  /-- `metadata.json` missing, not a JSON object, or without a `documents`
  array, so the manifest append fails. -/
  | manifestError
deriving DecidableEq

/-- Read a field of a JSON object. -/
def lookupField : List (String × JValue) → String → Option JValue
  | [], _ => none
  | f :: fs, k => if f.1 = k then some f.2 else lookupField fs k

/-- Assign a field of a JSON object in place (Python dict assignment to an
existing key keeps its position). -/
def setField (fields : List (String × JValue)) (k : String) (v : JValue) :
    List (String × JValue) :=
  fields.map (fun f => if f.1 = k then (k, v) else f)

/-- `RawDataStore.store_raw_document`: write the content under
`{sanitized id}.{extension}` (a JSON write when the extension is `json` and
the content is a dict or list, a text or binary write otherwise), write the
metadata dict under `{sanitized id}.meta.json`, then load `metadata.json`
and append `{id, filename, stored_at}` to its `documents` list. Errors
propagate after the writes already made (a dict or list under a non-json
extension leaves a truncated file before the binary write raises; a
clobbered or unreadable manifest leaves both document files in place). -/
def store_raw_document (b : BatchDir) (document_id : String)
    (content : RawContent) (metadata : DocumentMetadata)
    (file_extension : String) (now : Nat) :
    Except StoreError String × BatchDir :=
  let safe_id := sanitizeDocId document_id
  let fname := safe_id ++ "." ++ file_extension
  let written : Except StoreError FilePayload :=
    match content with
    | .jsonDict fs =>
      if file_extension = "json" then .ok (.json (.obj fs)) else .error .typeError
    | .jsonList xs =>
      if file_extension = "json" then .ok (.json (.arr xs)) else .error .typeError
    | .str s => .ok (.text s)
    | .bytes bs => .ok (.bytes bs)
  match written with
  | .error e => (.error e, { files := writeFile b.files fname (.bytes []) })
  | .ok payload =>
    let files1 := writeFile b.files fname payload
    let files2 := writeFile files1 (safe_id ++ ".meta.json")
      (.json (.obj (metadata.to_dict).toJson))
    match lookupFile files2 "metadata.json" with
    | some (.json (.obj fields)) =>
      match lookupField fields "documents" with
      | some (.arr docs) =>
        let entry : JValue := .obj
          [("id", .str document_id), ("filename", .str fname),
           ("stored_at", .str (natToDecimalString now))]
        let files3 := writeFile files2 "metadata.json"
          (.json (.obj (setField fields "documents" (.arr (docs ++ [entry])))))
        (.ok fname, { files := files3 })
      | _ => (.error .manifestError, { files := files2 })
    | _ => (.error .manifestError, { files := files2 })

/-- The `documents` list of a batch directory's manifest, when the
manifest file still is a JSON object with a `documents` array. -/
def manifestDocs (b : BatchDir) : Option (List JValue) :=
  match lookupFile b.files "metadata.json" with
  | some (.json (.obj fields)) =>
    match lookupField fields "documents" with
    | some (.arr docs) => some docs
    | _ => none
  | _ => none

/-- The arguments of one `store_raw_document` call. -/
structure StoreCall where
  document_id : String
  content : RawContent
  metadata : DocumentMetadata
  file_extension : String
  now : Nat

/-- The filename a call's content is stored under. -/
def StoreCall.contentFileName (c : StoreCall) : String :=
  sanitizeDocId c.document_id ++ "." ++ c.file_extension

/-- Whether the call's content can be written under its extension: a JSON
dict or list needs the `json` extension, text and bytes always write. -/
def StoreCall.writable (c : StoreCall) : Bool :=
  match c.content with
  | .jsonDict _ => c.file_extension = "json"
  | .jsonList _ => c.file_extension = "json"
  | .str _ => true
  | .bytes _ => true

/-- The manifest entry a call appends: `{id, filename, stored_at}`. -/
def StoreCall.entry (c : StoreCall) : JValue :=
  .obj [("id", .str c.document_id), ("filename", .str c.contentFileName),
        ("stored_at", .str (natToDecimalString c.now))]

/-- Run a sequence of `store_raw_document` calls against a batch. -/
def runStores (b : BatchDir) (calls : List StoreCall) : BatchDir :=
  calls.foldl (fun b c =>
    (store_raw_document b c.document_id c.content c.metadata
      c.file_extension c.now).2) b

/-- The manifest of a batch created for `src`, `nm` at `t0` once `docs`
entries have been appended to it. -/
def manifestState (src : SourceType) (nm : Option String) (t0 : Nat)
    (docs : List JValue) : JValue :=
  .obj [("source_type", .str src.value), ("batch_name", optStrJ nm),
        ("created_at", .str (natToDecimalString t0)),
        ("documents", .arr docs)]

theorem metaName_ne_manifest (s : String) :
    ¬ (s ++ ".meta.json" = "metadata.json") := by
  intro h
  have hd : s.data ++ (".meta.json").data = ("metadata.json").data := by
    rw [← String.data_append, h]
  have hlen := congrArg List.length hd
  rw [List.length_append] at hlen
  have h10 : (".meta.json").data.length = 10 := rfl
  have h13 : ("metadata.json").data.length = 13 := rfl
  rw [h10, h13] at hlen
  have h3 : s.data.length = 3 := by omega
  obtain ⟨a, b, c, habc⟩ := List.length_eq_three.mp h3
  rw [habc] at hd
  rw [show (".meta.json").data = ['.', 'm', 'e', 't', 'a', '.', 'j', 's', 'o', 'n']
    from rfl] at hd
  rw [show ("metadata.json").data
      = ['m', 'e', 't', 'a', 'd', 'a', 't', 'a', '.', 'j', 's', 'o', 'n']
    from rfl] at hd
  simp only [List.cons_append, List.nil_append, List.cons.injEq] at hd
  exact absurd hd.2.2.2.1 (by decide)

theorem store_raw_document_appends (b : BatchDir) (c : StoreCall)
    (src : SourceType) (nm : Option String) (t0 : Nat) (ds : List JValue)
    (hman : lookupFile b.files "metadata.json"
      = some (.json (manifestState src nm t0 ds)))
    (hw : c.writable = true) (hname : c.contentFileName ≠ "metadata.json") :
    (store_raw_document b c.document_id c.content c.metadata
        c.file_extension c.now).1 = .ok c.contentFileName
    ∧ lookupFile (store_raw_document b c.document_id c.content c.metadata
        c.file_extension c.now).2.files "metadata.json"
      = some (.json (manifestState src nm t0 (ds ++ [c.entry]))) := by
  have hmeta : ¬ ("metadata.json" = sanitizeDocId c.document_id ++ ".meta.json") :=
    fun h => metaName_ne_manifest (sanitizeDocId c.document_id) h.symm
  have hcf : ¬ ("metadata.json"
      = sanitizeDocId c.document_id ++ "." ++ c.file_extension) :=
    fun h => hname (h.symm : c.contentFileName = "metadata.json")
  have hwritten : ∃ payload, (match c.content with
      | RawContent.jsonDict fs =>
        if c.file_extension = "json" then Except.ok (FilePayload.json (.obj fs))
        else Except.error StoreError.typeError
      | RawContent.jsonList xs =>
        if c.file_extension = "json" then Except.ok (FilePayload.json (.arr xs))
        else Except.error StoreError.typeError
      | RawContent.str s => Except.ok (FilePayload.text s)
      | RawContent.bytes bs => Except.ok (FilePayload.bytes bs))
      = Except.ok payload := by
    cases hc : c.content with
    | jsonDict fs =>
      have hw' := hw
      rw [StoreCall.writable, hc] at hw'
      simp only [decide_eq_true_eq] at hw'
      refine ⟨FilePayload.json (.obj fs), ?_⟩
      simp [hw']
    | jsonList xs =>
      have hw' := hw
      rw [StoreCall.writable, hc] at hw'
      simp only [decide_eq_true_eq] at hw'
      refine ⟨FilePayload.json (.arr xs), ?_⟩
      simp [hw']
    | str s => exact ⟨FilePayload.text s, rfl⟩
    | bytes bs => exact ⟨FilePayload.bytes bs, rfl⟩
  obtain ⟨payload, hpayload⟩ := hwritten
  have hlook2 :
      lookupFile (writeFile
        (writeFile b.files (sanitizeDocId c.document_id ++ "." ++ c.file_extension)
          payload)
        (sanitizeDocId c.document_id ++ ".meta.json")
        (.json (.obj (c.metadata.to_dict).toJson))) "metadata.json"
      = some (.json (manifestState src nm t0 ds)) := by
    rw [lookupFile_writeFile, if_neg hmeta, lookupFile_writeFile, if_neg hcf, hman]
  simp only [store_raw_document]
  rw [hpayload]
  dsimp only
  rw [hlook2]
  dsimp only [manifestState]
  simp only [lookupField, setField, List.map_cons, List.map_nil]
  simp only [String.reduceEq, if_false]
  refine ⟨rfl, ?_⟩
  simp only [if_true]
  rw [lookupFile_writeFile, if_pos rfl]
  simp [StoreCall.contentFileName, StoreCall.entry, manifestState]

theorem runStores_manifest (src : SourceType) (nm : Option String) (t0 : Nat) :
    ∀ (calls : List StoreCall) (b : BatchDir) (ds : List JValue),
      lookupFile b.files "metadata.json"
        = some (.json (manifestState src nm t0 ds)) →
      (∀ c ∈ calls, c.writable = true ∧ c.contentFileName ≠ "metadata.json") →
      lookupFile (runStores b calls).files "metadata.json"
        = some (.json (manifestState src nm t0
            (ds ++ calls.map StoreCall.entry)))
  | [], b, ds, hman, _ => by simpa [runStores] using hman
  | c :: calls, b, ds, hman, hgood => by
    have hc := hgood c (List.mem_cons_self c calls)
    have step := store_raw_document_appends b c src nm t0 ds hman hc.1 hc.2
    have rest := runStores_manifest src nm t0 calls
      (store_raw_document b c.document_id c.content c.metadata
        c.file_extension c.now).2 (ds ++ [c.entry]) step.2
      (fun x hx => hgood x (List.mem_cons_of_mem c hx))
    simp only [runStores, List.foldl_cons] at rest ⊢
    rw [rest, List.append_assoc, List.singleton_append, List.map_cons]

theorem manifestDocs_of_state (b : BatchDir) (src : SourceType)
    (nm : Option String) (t0 : Nat) (ds : List JValue)
    (h : lookupFile b.files "metadata.json"
      = some (.json (manifestState src nm t0 ds))) :
    manifestDocs b = some ds := by
  rw [manifestDocs, h]
  dsimp only [manifestState]
  simp only [lookupField, String.reduceEq, if_false, if_true]

/-- C4 (amended): starting from `create_ingestion_batch`, a sequence of N
`store_raw_document` calls — each writable under its extension and none
storing its content under the manifest's own filename `metadata.json` —
all succeed and leave a manifest with exactly the N member entries of the
calls, in call order; and each single such call appends exactly one entry
to the end of the manifest, leaving every existing entry unchanged. -/
theorem create_batch_then_stores_manifest (src : SourceType)
    (nm : Option String) (t0 : Nat) (calls : List StoreCall)
    (hgood : ∀ c ∈ calls,
      c.writable = true ∧ c.contentFileName ≠ "metadata.json") :
    (manifestDocs (runStores (create_ingestion_batch src nm t0).2 calls)
        = some (calls.map StoreCall.entry)
      ∧ (calls.map StoreCall.entry).length = calls.length)
    ∧ ∀ (b : BatchDir) (ds : List JValue) (c : StoreCall),
        lookupFile b.files "metadata.json"
          = some (.json (manifestState src nm t0 ds)) →
        c.writable = true → c.contentFileName ≠ "metadata.json" →
        (store_raw_document b c.document_id c.content c.metadata
            c.file_extension c.now).1 = .ok c.contentFileName
        ∧ manifestDocs (store_raw_document b c.document_id c.content
            c.metadata c.file_extension c.now).2 = some (ds ++ [c.entry]) := by
  constructor
  · constructor
    · have h0 : lookupFile (create_ingestion_batch src nm t0).2.files
          "metadata.json" = some (.json (manifestState src nm t0 [])) := by
        cases nm <;> rfl
      have := runStores_manifest src nm t0 calls _ [] h0 hgood
      rw [List.nil_append] at this
      exact manifestDocs_of_state _ src nm t0 _ this
    · exact List.length_map _ _
  · intro b ds c hman hw hname
    have step := store_raw_document_appends b c src nm t0 ds hman hw hname
    exact ⟨step.1, manifestDocs_of_state _ src nm t0 _ step.2⟩

/-- A concrete metadata value used by the concrete evaluations. -/
def exMeta : DocumentMetadata where
  source_type := .slack
  source_id := "t1"
  source_name := "general"
  ingested_at := ⟨5⟩

/-- C4 as frozen is false on the code: storing a document whose id
sanitizes to `metadata` (with JSON content) writes its content to
`metadata.json`, the batch manifest file itself. Here two successful
`store_raw_document` calls (both return a stored path) leave a manifest
with one member entry, not two, and the first call's entry is gone. -/
theorem manifest_clobber_counterexample :
    (let b0 := (create_ingestion_batch .slack (some "general") 0).2
     let s1 := store_raw_document b0 "doc1"
       (.jsonDict [("text", .str "hello")]) exMeta "json" 1
     let s2 := store_raw_document s1.2 "metadata"
       (.jsonDict [("documents", .arr [])]) exMeta "json" 2
     s1.1 = .ok "doc1.json" ∧ s2.1 = .ok "metadata.json"
       ∧ (manifestDocs s2.2).map List.length = some 1) := by
  refine ⟨rfl, rfl, rfl⟩

/-- A langchain `Document`: page content plus a flat metadata dict. -/
structure LCDocument where
  page_content : String
  metadata : List (String × JValue)

/-- Python `dict.update`: an existing key is reassigned in place, a new key
is appended, in the update's order. -/
def dictUpdate (base upd : List (String × JValue)) : List (String × JValue) :=
  upd.foldl (fun acc kv =>
    if acc.any (fun e => e.1 = kv.1) then
      acc.map (fun e => if e.1 = kv.1 then (kv.1, kv.2) else e)
    else acc ++ [kv]) base

/-- `DocumentProcessor._build_langchain_metadata`: the core identification
and temporal fields, each optional field when present, then `extra` merged
in with `dict.update`. (Its `source_data` parameter is unused in the
source, so it is not a parameter here.) -/
def buildLangchainMetadata (m : DocumentMetadata) : List (String × JValue) :=
  let md := [("source", JValue.str m.source_name),
             ("source_type", JValue.str m.source_type.value),
             ("source_id", JValue.str m.source_id),
             ("ingested_at", JValue.str m.ingested_at.isoformat)]
  let md := match m.source_timestamp with
    | some t => md ++ [("source_timestamp", JValue.str t.isoformat)]
    | none => md
  let md := match m.author with
    | some a => md ++ [("author", JValue.str a)]
    | none => md
  let md := match m.title with
    | some t => md ++ [("title", JValue.str t)]
    | none => md
  let md := match m.url with
    | some u => md ++ [("url", JValue.str u)]
    | none => md
  dictUpdate md m.extra

/-- One message of a slack thread file; each field is read with `msg[...]`,
which raises when the key is absent, hence the `Option`s. -/
structure SlackMessage where
  timestamp : Option String
  user_name : Option String
  text : Option String

/-- The JSON of one stored slack thread: `channel_name` and `thread_ts` are
read with `[...]` (raising when absent), `participants` and `messages` with
`.get(..., default)` (defaulting when absent). -/
structure ThreadData where
  channel_name : Option String
  thread_ts : Option String
  participants : List String
  messages : List SlackMessage

/-- `DocumentProcessor._format_slack_conversation`: header lines joined with
newlines, followed by one `[timestamp] user: text` line per message;
`none` models the `KeyError` of a missing field, caught per document. -/
def formatSlackConversation (t : ThreadData) : Option String :=
  match t.channel_name, t.thread_ts with
  | some ch, some ts =>
    (t.messages.mapM (fun (m : SlackMessage) =>
      match m.timestamp, m.user_name, m.text with
      | some a, some u, some x => some ("[" ++ a ++ "] " ++ u ++ ": " ++ x)
      | _, _, _ => none)).map (fun msgLines =>
        String.intercalate "\n"
          (["# Slack Conversation: #" ++ ch, "Thread ID: " ++ ts,
            "Participants: " ++ String.intercalate ", " t.participants,
            "", "---", ""] ++ msgLines))
  | _, _ => none

/-- One `thread_*.json` file of a slack batch together with its sibling
metadata file; `none` models an unreadable or malformed JSON file. -/
structure ThreadFile where
  thread_data : Option ThreadData
  metadata_dict : Option DocumentMetadataDict

/-- The body of the `try` of `_process_slack_batch` for one thread file:
load the thread, load and parse its metadata, render the conversation,
build one document carrying the langchain metadata, split it into chunks.
`none` is the raised exception, caught by the per-document handler. The
splitter is a parameter: it is langchain's
`RecursiveCharacterTextSplitter.split_documents`, an external collaborator. -/
def processThread (split : LCDocument → List LCDocument) (f : ThreadFile) :
    Option (List LCDocument) := do
  let td ← f.thread_data
  let md ← f.metadata_dict
  let metadata ← DocumentMetadata.from_dict md
  let text ← formatSlackConversation td
  some (split { page_content := text
                metadata := buildLangchainMetadata metadata })

/-- `DocumentProcessor._process_slack_batch`: process the thread files in
order; a file whose processing raises is logged and skipped, and the chunks
of the rest are concatenated in order. -/
def processSlackBatch (split : LCDocument → List LCDocument)
    (files : List ThreadFile) : List LCDocument :=
  files.foldl (fun acc f =>
    match processThread split f with
    | some cs => acc ++ cs
    | none => acc) []

theorem processSlackBatch_acc (split : LCDocument → List LCDocument) :
    ∀ (files : List ThreadFile) (acc : List LCDocument),
      files.foldl (fun acc f =>
        match processThread split f with
        | some cs => acc ++ cs
        | none => acc) acc = acc ++ processSlackBatch split files
  | [], acc => by simp [processSlackBatch]
  | f :: files, acc => by
    rw [processSlackBatch, List.foldl_cons, List.foldl_cons,
      processSlackBatch_acc split files, processSlackBatch_acc split files]
    cases processThread split f <;> simp

theorem processSlackBatch_append (split : LCDocument → List LCDocument)
    (l1 l2 : List ThreadFile) :
    processSlackBatch split (l1 ++ l2)
      = processSlackBatch split l1 ++ processSlackBatch split l2 := by
  rw [processSlackBatch, List.foldl_append]
  rw [show List.foldl (fun acc f =>
      match processThread split f with
      | some cs => acc ++ cs
      | none => acc) [] l1 = processSlackBatch split l1 from rfl]
  exact processSlackBatch_acc split l2 _

theorem processSlackBatch_all (split : LCDocument → List LCDocument)
    (g : ThreadFile → List LCDocument) :
    ∀ files : List ThreadFile,
      (∀ f ∈ files, processThread split f = some (g f)) →
      processSlackBatch split files = (files.map g).flatten
  | [], _ => rfl
  | f :: files, h => by
    have hf := h f (List.mem_cons_self f files)
    have rest := processSlackBatch_all split g files
      (fun x hx => h x (List.mem_cons_of_mem f hx))
    rw [processSlackBatch, List.foldl_cons, hf,
      processSlackBatch_acc split files, rest]
    simp

/-- C7: a failure while rendering one document of a slack batch is skipped
and does not abort the batch: the result over `pre ++ [bad] ++ post` equals
the result over `pre ++ post`, and when every remaining document renders
successfully the result is exactly the concatenation of their chunk groups,
in order — never empty merely because one document failed. -/
theorem process_batch_skips_failure (split : LCDocument → List LCDocument)
    (pre post : List ThreadFile) (bad : ThreadFile)
    (g : ThreadFile → List LCDocument)
    (hbad : processThread split bad = none)
    (hgood : ∀ f ∈ pre ++ post, processThread split f = some (g f)) :
    processSlackBatch split (pre ++ bad :: post)
      = processSlackBatch split (pre ++ post)
    ∧ processSlackBatch split (pre ++ bad :: post)
      = ((pre ++ post).map g).flatten := by
  have hskip : processSlackBatch split (pre ++ bad :: post)
      = processSlackBatch split (pre ++ post) := by
    rw [show bad :: post = [bad] ++ post from rfl,
      processSlackBatch_append, processSlackBatch_append,
      processSlackBatch_append]
    rw [show processSlackBatch split [bad] = [] from by
      rw [processSlackBatch, List.foldl_cons, hbad]; rfl]
    simp
  exact ⟨hskip, hskip.trans (processSlackBatch_all split g _ hgood)⟩

/-- A concrete thread file that renders successfully. -/
def exThread (ts : String) : ThreadFile where
  thread_data := some
    { channel_name := some "eng", thread_ts := some ts,
      participants := [], messages := [] }
  metadata_dict := some (DocumentMetadata.to_dict exMeta)

/-- A concrete thread file whose metadata file is missing, so its
processing raises and is skipped. -/
def exBadThread : ThreadFile where
  thread_data := some
    { channel_name := some "eng", thread_ts := some "2",
      participants := [], messages := [] }
  metadata_dict := none

/-- The chunk group a thread file yields under the one-chunk splitter. -/
def exGroup (f : ThreadFile) : List LCDocument :=
  match processThread (fun d => [d]) f with
  | some cs => cs
  | none => []

/-- Witness: C7 at a concrete input — a three-file batch whose middle file
fails (its metadata file is missing); the batch result equals the result
without the failed file, which is the two good files' chunk groups. -/
theorem process_batch_skips_failure_witness :
    processSlackBatch (fun d => [d])
        ([exThread "1"] ++ exBadThread :: [exThread "3"])
      = processSlackBatch (fun d => [d]) ([exThread "1"] ++ [exThread "3"])
    ∧ processSlackBatch (fun d => [d])
        ([exThread "1"] ++ exBadThread :: [exThread "3"])
      = (([exThread "1"] ++ [exThread "3"]).map exGroup).flatten :=
  process_batch_skips_failure (fun d => [d])
    [exThread "1"] [exThread "3"] exBadThread exGroup rfl
    (by
      intro f hf
      rcases List.mem_append.mp hf with h | h <;>
        simp only [List.mem_singleton] at h <;> subst h <;> rfl)

/-- Modelled from the spec: the deterministic sliding-window splitter the
processor configures — langchain's `RecursiveCharacterTextSplitter`, an
external collaborator whose code is not part of this repository. Per the
spec it splits with a fixed target chunk size `C` (characters), a fixed
overlap `O`, and break-preference separators; over a single dominant
separator it emits the window of the first `C` characters and slides by
`C − O`, until the remainder fits one chunk. -/
def slidingChunks (C O : Nat) (hO : O < C) (text : List Char) :
    List (List Char) :=
  if h : text.length ≤ C then [text]
  else text.take C :: slidingChunks C O hO (text.drop (C - O))
termination_by text.length
decreasing_by
  simp only [List.length_drop]
  omega

theorem slidingChunks_length (C O : Nat) (hO : O < C) (text : List Char)
    (hL : O < text.length) :
    (slidingChunks C O hO text).length
      = (text.length - O + (C - O) - 1) / (C - O) := by
  rw [slidingChunks]
  by_cases h : text.length ≤ C
  · rw [dif_pos h]
    have hd : (text.length - O + (C - O) - 1) / (C - O) = 1 := by
      apply Nat.div_eq_of_lt_le
      · omega
      · omega
    rw [hd]
    rfl
  · rw [dif_neg h]
    have hrec := slidingChunks_length C O hO (text.drop (C - O))
      (by simp only [List.length_drop]; omega)
    rw [List.length_cons, hrec, List.length_drop]
    have harg : text.length - O + (C - O) - 1
        = (text.length - (C - O) - O + (C - O) - 1) + (C - O) := by omega
    rw [harg, Nat.add_div_right _ (by omega : 0 < C - O)]
termination_by text.length
decreasing_by
  simp only [List.length_drop]
  omega

theorem slidingChunks_size (C O : Nat) (hO : O < C) (text : List Char) :
    ∀ ch ∈ slidingChunks C O hO text, ch.length ≤ C := by
  rw [slidingChunks]
  by_cases h : text.length ≤ C
  · rw [dif_pos h]
    intro ch hch
    rw [List.mem_singleton] at hch
    subst hch
    exact h
  · rw [dif_neg h]
    intro ch hch
    rcases List.mem_cons.mp hch with h1 | h1
    · subst h1
      rw [List.length_take]
      omega
    · exact slidingChunks_size C O hO (text.drop (C - O)) ch h1
termination_by text.length
decreasing_by
  simp only [List.length_drop]
  omega

theorem slidingChunks_getD (C O : Nat) (hO : O < C) (text : List Char)
    (i : Nat) (hi : i < (slidingChunks C O hO text).length) :
    (slidingChunks C O hO text).getD i []
      = (text.drop (i * (C - O))).take C := by
  rw [slidingChunks] at hi ⊢
  by_cases h : text.length ≤ C
  · rw [dif_pos h] at hi ⊢
    rw [List.length_singleton] at hi
    have hi0 : i = 0 := by omega
    subst hi0
    rw [Nat.zero_mul, List.drop_zero]
    exact (List.take_of_length_le h).symm
  · rw [dif_neg h] at hi ⊢
    match i with
    | 0 =>
      rw [Nat.zero_mul, List.drop_zero]
      rfl
    | j + 1 =>
      rw [List.length_cons] at hi
      have hrec := slidingChunks_getD C O hO (text.drop (C - O)) j
        (by omega)
      rw [show ((text.take C :: slidingChunks C O hO
          (text.drop (C - O))).getD (j + 1) []) = ((slidingChunks C O hO
          (text.drop (C - O))).getD j []) from rfl, hrec,
        List.drop_drop, Nat.succ_mul, Nat.add_comm (j * (C - O)) (C - O)]
termination_by text.length
decreasing_by
  simp only [List.length_drop]
  omega

theorem slidingChunks_overlap (C O : Nat) (hO : O < C) (text : List Char)
    (i : Nat) (hi : i + 1 < (slidingChunks C O hO text).length) :
    ((slidingChunks C O hO text).getD i []).drop (C - O)
      = ((slidingChunks C O hO text).getD (i + 1) []).take O := by
  rw [slidingChunks_getD C O hO text i (by omega),
    slidingChunks_getD C O hO text (i + 1) hi,
    List.drop_take, List.take_take, List.drop_drop,
    Nat.succ_mul, Nat.add_comm (i * (C - O)) (C - O)]
  have h1 : C - (C - O) = O := by omega
  have h2 : min O C = O := by omega
  rw [h1, h2]

/-- C8 (spec-modelled sliding-window splitter): splitting a text of length
L with chunk size C and overlap O (O < C, O < L) produces exactly
⌈(L−O)/(C−O)⌉ chunks; each chunk is at most C characters long; the i-th
chunk is exactly the C-character window at offset i·(C−O) of the original
text, so the chunks appear in original document order; and each chunk's
final C−O-offset tail equals its successor's first O characters, so each
chunk overlaps its successor by at most O characters. -/
theorem sliding_window_chunking (C O : Nat) (hO : O < C) (text : List Char)
    (hL : O < text.length) :
    (slidingChunks C O hO text).length
      = (text.length - O + (C - O) - 1) / (C - O)
    ∧ (∀ ch ∈ slidingChunks C O hO text, ch.length ≤ C)
    ∧ (∀ i, i < (slidingChunks C O hO text).length →
        (slidingChunks C O hO text).getD i []
          = (text.drop (i * (C - O))).take C)
    ∧ (∀ i, i + 1 < (slidingChunks C O hO text).length →
        ((slidingChunks C O hO text).getD i []).drop (C - O)
          = ((slidingChunks C O hO text).getD (i + 1) []).take O) :=
  ⟨slidingChunks_length C O hO text hL,
   slidingChunks_size C O hO text,
   fun i hi => slidingChunks_getD C O hO text i hi,
   fun i hi => slidingChunks_overlap C O hO text i hi⟩

/-- Witness: C8 at a concrete input — a 10-character text split with
C = 7, O = 2 gives ⌈8/5⌉ = 2 chunks. -/
theorem sliding_window_chunking_witness :
    (slidingChunks 7 2 (by decide) "abcdefghij".data).length
      = (("abcdefghij".data).length - 2 + (7 - 2) - 1) / (7 - 2)
    ∧ (∀ ch ∈ slidingChunks 7 2 (by decide) "abcdefghij".data,
        ch.length ≤ 7)
    ∧ (∀ i, i < (slidingChunks 7 2 (by decide) "abcdefghij".data).length →
        (slidingChunks 7 2 (by decide) "abcdefghij".data).getD i []
          = (("abcdefghij".data).drop (i * (7 - 2))).take 7)
    ∧ (∀ i, i + 1 < (slidingChunks 7 2 (by decide)
          "abcdefghij".data).length →
        ((slidingChunks 7 2 (by decide) "abcdefghij".data).getD i
            []).drop (7 - 2)
          = ((slidingChunks 7 2 (by decide) "abcdefghij".data).getD (i + 1)
              []).take 2) :=
  sliding_window_chunking 7 2 (by decide) "abcdefghij".data (by decide)

/-- The outcome of one `processor.process_batch(batch_path)` call inside a
vector-manager loop: the batch's basename and either its chunk documents or
the exception the `try` caught. The processor is a deterministic function
of the stored (immutable) batch, so one value per batch covers repeated
calls. -/
structure BatchInput where
  name : String
  result : Except String (List LCDocument)

/-- The batch-processing loop shared by `initialize_index` and
`update_index`: extend the document list and record per-batch stats for
each batch that processes, skip (only logging) each batch that raises. -/
def processBatches (bs : List BatchInput) :
    List LCDocument × List (String × Nat) :=
  bs.foldl (fun acc b =>
    match b.result with
    | .ok docs => (acc.1 ++ docs, acc.2 ++ [(b.name, docs.length)])
    | .error _ => acc) ([], [])

/-- The persisted `vectorstore_version.json` record, as `initialize_index`
creates it and `update_index` rewrites it. Optional fields are absent until
the operation that writes them first runs. -/
structure VersionInfo where
  created_at : Nat
  embedding_model : String
  document_count : Nat
  batch_stats : List (String × Nat)
  version : Nat
  operation : String
  last_updated : Option Nat := none
  last_operation : Option String := none
  last_update_stats : Option (List (String × Nat)) := none
deriving DecidableEq

/-- The on-disk state a `VectorStoreManager` owns: whether the vector store
directory exists, how many documents the index provider holds, the version
record file (`none` when absent — the file lives next to the store
directory, so deleting the store does not delete it), and the backups made
by rebuilds, each a snapshot of the provider's document count. -/
structure VMState where
  indexExists : Bool
  providerCount : Nat
  versionFile : Option VersionInfo
  backups : List Nat
deriving DecidableEq

/-- An error raised by a vector-manager operation. -/
inductive VMError where
  /-- `initialize_index` on an existing store ("Vector store already
  exists"). -/
  | conflict
  /-- `initialize_index` with no processable documents ("No documents to
  index"). -/
  | noDocuments
  /-- `update_index` without an existing store ("Vector store does not
  exist"). -/
  | notInitialized
  /-- The embedding/index provider call raised. -/
  | providerFailure
  /-- `update_index` found an index but no version record: the `{}` that
  `_load_version_info` returns has no `document_count` key. -/
  | keyError
deriving DecidableEq

/-- The dict `update_index` returns: `{"added": 0}` on the no-document
path, the full `{added, total, batch_stats}` report otherwise. -/
inductive UpdateReport where
  | empty
  | report (added total : Nat) (batch_stats : List (String × Nat))
deriving DecidableEq

/-- `VectorStoreManager.initialize_index`: fail closed when the store
already exists; process the batches (failures skipped); fail when no
documents resulted; call the provider (`Chroma.from_documents`, modeled by
the `providerOk` oracle — on failure the exception propagates before
anything else happens); only after the provider call succeeds write the
version record, with `version := 1`. -/
def initialize_index (providerOk : Bool) (now : Nat) (em : String)
    (batches : List BatchInput) (st : VMState) :
    Except VMError VersionInfo × VMState :=
  if st.indexExists then (.error .conflict, st)
  else
    let pr := processBatches batches
    if pr.1.isEmpty then (.error .noDocuments, st)
    else if providerOk then
      let vi : VersionInfo :=
        { created_at := now, embedding_model := em,
          document_count := pr.1.length, batch_stats := pr.2,
          version := 1, operation := "initialize" }
      (.ok vi,
        { st with
            indexExists := true
            providerCount := st.providerCount + pr.1.length
            versionFile := some vi })
    else (.error .providerFailure, st)

/-- `VectorStoreManager.update_index`: require an existing store; process
the new batches; when they yield no documents return `{"added": 0}` at once
(no provider call, no version write); otherwise call the provider
(`add_documents`) and only then load the version record, bump
`document_count` by the number of added documents and `version` by one, and
write it back. A store without a version record makes the
`version_info["document_count"] += ...` line raise after the provider call
(the record file itself stays as it was). -/
def update_index (providerOk : Bool) (now : Nat)
    (batches : List BatchInput) (st : VMState) :
    Except VMError UpdateReport × VMState :=
  if !st.indexExists then (.error .notInitialized, st)
  else
    let pr := processBatches batches
    if pr.1.isEmpty then (.ok .empty, st)
    else if providerOk then
      let st1 := { st with
        providerCount := st.providerCount + pr.1.length }
      match st.versionFile with
      | none => (.error .keyError, st1)
      | some vi =>
        let vi2 : VersionInfo :=
          { vi with
              last_updated := some now
              document_count := vi.document_count + pr.1.length
              version := vi.version + 1
              last_operation := some "update"
              last_update_stats := some pr.2 }
        (.ok (.report pr.1.length vi2.document_count pr.2),
          { st1 with versionFile := some vi2 })
    else (.error .providerFailure, st)

/-- The disk state after `rebuild_index`'s backup copy (when asked) and
`shutil.rmtree` of the store directory, just before it recreates the
index: the store is gone and the provider empty, while the version record
file — which lives outside the store directory — is untouched. -/
def rebuildInnerState (backup : Bool) (st : VMState) : VMState :=
  { (if backup then { st with backups := st.backups ++ [st.providerCount] }
     else st) with
      indexExists := false
      providerCount := 0 }

/-- `VectorStoreManager.rebuild_index`: degrade to `initialize_index` when
no store exists; otherwise back the store up when asked, delete the store
directory, and recreate the index with `initialize_index` from the
post-delete state, stamping the returned (not the persisted) report as a
rebuild on success and propagating the exception otherwise. (The returned
dict also gains backup-bookkeeping keys, which no claim touches; the
persisted record is the one `initialize_index` wrote.) -/
def rebuild_index (providerOk : Bool) (now : Nat) (em : String)
    (batches : List BatchInput) (backup : Bool) (st : VMState) :
    Except VMError VersionInfo × VMState :=
  if !st.indexExists then initialize_index providerOk now em batches st
  else
    let res := initialize_index providerOk now em batches
      (rebuildInnerState backup st)
    (res.1.map (fun vi => { vi with operation := "rebuild" }), res.2)

theorem isEmpty_false_of_ne {α : Type} (l : List α) (h : l ≠ []) :
    l.isEmpty = false := by
  cases l with
  | nil => exact absurd rfl h
  | cons a l => rfl

theorem initialize_index_ok (p : Bool) (now : Nat) (em : String)
    (batches : List BatchInput) (st : VMState) (vi : VersionInfo)
    (st2 : VMState)
    (h : initialize_index p now em batches st = (.ok vi, st2)) :
    vi.version = 1 ∧ st2.versionFile = some vi := by
  rw [initialize_index] at h
  by_cases hex : st.indexExists
  · simp [hex] at h
  · simp only [hex, Bool.false_eq_true, if_false] at h
    by_cases hev : (processBatches batches).1.isEmpty
    · simp [hev] at h
    · simp only [hev, Bool.false_eq_true, if_false] at h
      cases p with
      | false => simp at h
      | true =>
        simp only [if_true, Prod.mk.injEq, Except.ok.injEq] at h
        obtain ⟨hvi, hst⟩ := h
        subst hvi
        subst hst
        exact ⟨rfl, rfl⟩

theorem initialize_index_fail_state (p : Bool) (now : Nat) (em : String)
    (batches : List BatchInput) (st : VMState)
    (h : ∀ vi st2, initialize_index p now em batches st ≠ (.ok vi, st2)) :
    (initialize_index p now em batches st).2 = st := by
  rw [initialize_index]
  by_cases hex : st.indexExists
  · simp [hex]
  · simp only [hex, Bool.false_eq_true, if_false]
    by_cases hev : (processBatches batches).1.isEmpty
    · simp [hev]
    · simp only [hev, Bool.false_eq_true, if_false]
      cases p with
      | false => rfl
      | true =>
        exfalso
        exact h
          { created_at := now, embedding_model := em,
            document_count := (processBatches batches).1.length,
            batch_stats := (processBatches batches).2,
            version := 1, operation := "initialize" }
          { st with
              indexExists := true
              providerCount := st.providerCount
                + (processBatches batches).1.length
              versionFile := some
                { created_at := now
                  embedding_model := em
                  document_count := (processBatches batches).1.length
                  batch_stats := (processBatches batches).2
                  version := 1
                  operation := "initialize" } }
          (by rw [initialize_index]; simp [hex, hev])

theorem initialize_index_providerFail (now : Nat) (em : String)
    (batches : List BatchInput) (st : VMState) :
    (initialize_index false now em batches st).2 = st
    ∧ ∀ vi st2, initialize_index false now em batches st ≠ (.ok vi, st2) := by
  have hno : ∀ vi st2,
      initialize_index false now em batches st ≠ (.ok vi, st2) := by
    intro vi st2 h
    rw [initialize_index] at h
    by_cases hex : st.indexExists
    · simp [hex] at h
    · simp only [hex, Bool.false_eq_true, if_false] at h
      by_cases hev : (processBatches batches).1.isEmpty
      · simp [hev] at h
      · simp [hev] at h
  exact ⟨initialize_index_fail_state false now em batches st hno, hno⟩

theorem update_index_ok (now : Nat) (batches : List BatchInput)
    (st : VMState) (vi : VersionInfo)
    (hex : st.indexExists = true) (hvf : st.versionFile = some vi)
    (hne : (processBatches batches).1 ≠ []) :
    update_index true now batches st
      = (.ok (.report (processBatches batches).1.length
          (vi.document_count + (processBatches batches).1.length)
          (processBatches batches).2),
        { st with
            providerCount := st.providerCount
              + (processBatches batches).1.length
            versionFile := some { vi with
              last_updated := some now
              document_count := vi.document_count
                + (processBatches batches).1.length
              version := vi.version + 1
              last_operation := some "update"
              last_update_stats := some (processBatches batches).2 } }) := by
  rw [update_index]
  simp [hex, hvf, isEmpty_false_of_ne _ hne]

theorem rebuildInnerState_versionFile (backup : Bool) (st : VMState) :
    (rebuildInnerState backup st).versionFile = st.versionFile := by
  cases backup <;> rfl

theorem rebuild_index_ok (p : Bool) (now : Nat) (em : String)
    (batches : List BatchInput) (backup : Bool) (st : VMState)
    (vi : VersionInfo) (st2 : VMState)
    (h : rebuild_index p now em batches backup st = (.ok vi, st2)) :
    ∃ vi2, st2.versionFile = some vi2 ∧ vi2.version = 1 := by
  rw [rebuild_index] at h
  by_cases hex : st.indexExists
  · simp only [hex, Bool.not_true, Bool.false_eq_true, if_false] at h
    rcases hres : initialize_index p now em batches
        (rebuildInnerState backup st) with ⟨r, st3⟩
    rw [hres] at h
    cases r with
    | error e => simp [Except.map] at h
    | ok v =>
      simp only [Except.map, Prod.mk.injEq, Except.ok.injEq] at h
      obtain ⟨_, hst⟩ := h
      have hok := initialize_index_ok p now em batches
        (rebuildInnerState backup st) v st3 hres
      subst hst
      exact ⟨v, hok.2, hok.1⟩
  · simp only [hex, Bool.not_false, Bool.false_eq_true, if_true] at h
    have hok := initialize_index_ok p now em batches st vi st2 h
    exact ⟨vi, hok.2, hok.1⟩

theorem update_index_fail (now : Nat) (batches : List BatchInput)
    (st : VMState) :
    (update_index false now batches st).2 = st
    ∧ ((processBatches batches).1 ≠ [] →
        ∃ e, (update_index false now batches st).1 = .error e) := by
  rw [update_index]
  by_cases hex : st.indexExists
  · simp only [hex, Bool.not_true, Bool.false_eq_true, if_false]
    by_cases hev : (processBatches batches).1.isEmpty
    · simp only [hev, if_true]
      refine ⟨trivial, fun hne => ?_⟩
      rw [isEmpty_false_of_ne _ hne] at hev
      exact absurd hev (by simp)
    · simp only [hev, Bool.false_eq_true, if_false]
      exact ⟨trivial, fun _ => ⟨.providerFailure, rfl⟩⟩
  · simp only [hex, Bool.not_false, if_true]
    exact ⟨trivial, fun _ => ⟨.notInitialized, rfl⟩⟩

theorem rebuild_index_fail (now : Nat) (em : String)
    (batches : List BatchInput) (backup : Bool) (st : VMState) :
    (rebuild_index false now em batches backup st).2.versionFile
      = st.versionFile
    ∧ ∀ vi st2,
        rebuild_index false now em batches backup st ≠ (.ok vi, st2) := by
  rw [rebuild_index]
  by_cases hex : st.indexExists
  · simp only [hex, Bool.not_true, Bool.false_eq_true, if_false]
    have hpf := initialize_index_providerFail now em batches
      (rebuildInnerState backup st)
    rcases hres : initialize_index false now em batches
        (rebuildInnerState backup st) with ⟨r, st3⟩
    constructor
    · have h1 := hpf.1
      rw [hres] at h1
      simp only [hres]
      show st3.versionFile = st.versionFile
      rw [show st3 = rebuildInnerState backup st from h1,
        rebuildInnerState_versionFile]
    · intro vi st2 h
      cases r with
      | error e => simp [Except.map] at h
      | ok v => exact absurd hres (hpf.2 _ _)
  · simp only [hex, Bool.not_false, if_true]
    exact ⟨congrArg VMState.versionFile
        (initialize_index_providerFail now em batches st).1,
      (initialize_index_providerFail now em batches st).2⟩

/-- C1 (amended): a successful `initialize_index` creates the version
record with `version = 1`; each successful document-adding `update_index`
increments the persisted version integer by exactly 1; and a successful
`rebuild_index` resets the persisted version to 1 — it recreates the
record from scratch rather than incrementing it. -/
theorem version_record_lifecycle (now : Nat) (em : String)
    (batches : List BatchInput) (backup : Bool) (st : VMState) :
    (∀ p vi st2, initialize_index p now em batches st = (.ok vi, st2) →
      vi.version = 1 ∧ st2.versionFile = some vi)
    ∧ (∀ vi, st.indexExists = true → st.versionFile = some vi →
        (processBatches batches).1 ≠ [] →
        ∃ vi2, (update_index true now batches st).2.versionFile = some vi2
          ∧ vi2.version = vi.version + 1)
    ∧ (∀ p vi st2,
        rebuild_index p now em batches backup st = (.ok vi, st2) →
        ∃ vi2, st2.versionFile = some vi2 ∧ vi2.version = 1) := by
  refine ⟨fun p vi st2 h => initialize_index_ok p now em batches st vi st2 h,
    ?_, fun p vi st2 h => rebuild_index_ok p now em batches backup st vi st2 h⟩
  intro vi hex hvf hne
  have h := update_index_ok now batches st vi hex hvf hne
  refine ⟨{ vi with
      last_updated := some now
      document_count := vi.document_count + (processBatches batches).1.length
      version := vi.version + 1
      last_operation := some "update"
      last_update_stats := some (processBatches batches).2 }, ?_, rfl⟩
  rw [h]

/-- A concrete chunk-producing batch for the concrete evaluations. -/
def exBatch : BatchInput where
  name := "b"
  result := .ok [{ page_content := "x", metadata := [] }]

/-- A concrete version-5 record for the concrete evaluations. -/
def exVi5 : VersionInfo where
  created_at := 0
  embedding_model := "m"
  document_count := 7
  batch_stats := []
  version := 5
  operation := "initialize"

/-- C1 as frozen is false on the code: a successful `rebuild_index` does
not increment the version by exactly 1, it resets it. From a version-5
index, a successful rebuild leaves the persisted version at 1, not 6. -/
theorem rebuild_resets_version_counterexample :
    (let st0 : VMState :=
      { indexExists := true, providerCount := 7,
        versionFile := some exVi5, backups := [] }
     let res := rebuild_index true 9 "m" [exBatch] true st0
     res.2.versionFile.map VersionInfo.version = some 1
       ∧ res.2.versionFile.map VersionInfo.version ≠ some (5 + 1)
       ∧ ∃ vi, res.1 = .ok vi ∧ vi.version = 1) := by
  exact ⟨rfl, by decide, ⟨_, rfl, rfl⟩⟩

/-- C2: `initialize_index` on a path where the index already exists fails
closed with the conflict error before doing anything, leaving the whole
state — the version record included — untouched, whatever the provider
would do; on a path with no existing index it succeeds whenever at least
one batch yields processable documents (and the provider call succeeds),
creating the version-1 record. -/
theorem initialize_conflict_or_success (p : Bool) (now : Nat) (em : String)
    (batches : List BatchInput) (st : VMState) :
    (st.indexExists = true →
      initialize_index p now em batches st = (.error .conflict, st))
    ∧ (st.indexExists = false → (processBatches batches).1 ≠ [] →
      ∃ vi st2, initialize_index true now em batches st = (.ok vi, st2)
        ∧ vi.version = 1 ∧ st2.versionFile = some vi) := by
  constructor
  · intro h
    rw [initialize_index]
    simp [h]
  · intro h hne
    refine ⟨{ created_at := now
              embedding_model := em
              document_count := (processBatches batches).1.length
              batch_stats := (processBatches batches).2
              version := 1
              operation := "initialize" },
      { st with
          indexExists := true
          providerCount := st.providerCount
            + (processBatches batches).1.length
          versionFile := some
            { created_at := now
              embedding_model := em
              document_count := (processBatches batches).1.length
              batch_stats := (processBatches batches).2
              version := 1
              operation := "initialize" } }, ?_, rfl, rfl⟩
    rw [initialize_index]
    simp [h, isEmpty_false_of_ne _ hne]

/-- Witness: C2 at a concrete input — the conflict half on an existing
index, the success half on a fresh state with one processable batch. -/
theorem initialize_conflict_or_success_witness :
    (initialize_index true 3 "m" [exBatch]
        { indexExists := true, providerCount := 7,
          versionFile := some exVi5, backups := [] }
      = (.error .conflict,
        { indexExists := true, providerCount := 7,
          versionFile := some exVi5, backups := [] }))
    ∧ ∃ vi st2, initialize_index true 3 "m" [exBatch]
        { indexExists := false, providerCount := 0,
          versionFile := none, backups := [] } = (.ok vi, st2)
        ∧ vi.version = 1 ∧ st2.versionFile = some vi :=
  ⟨(initialize_conflict_or_success true 3 "m" [exBatch]
      { indexExists := true, providerCount := 7,
        versionFile := some exVi5, backups := [] }).1 rfl,
   (initialize_conflict_or_success true 3 "m" [exBatch]
      { indexExists := false, providerCount := 0,
        versionFile := none, backups := [] }).2 rfl
     (by simp [processBatches, exBatch])⟩

/-- C3: when the embedding/index provider call fails, `initialize_index`,
`update_index` and `rebuild_index` never report success (for `update_index`
under batches that actually yield documents — with none it returns before
any provider call) and the persisted version record is exactly what it was
before the attempt: the record is written only after the provider call
succeeds. -/
theorem provider_failure_leaves_version_record (now : Nat) (em : String)
    (batches : List BatchInput) (backup : Bool) (st : VMState) :
    ((initialize_index false now em batches st).2.versionFile
        = st.versionFile
      ∧ ∀ vi st2, initialize_index false now em batches st ≠ (.ok vi, st2))
    ∧ ((update_index false now batches st).2.versionFile = st.versionFile
      ∧ ((processBatches batches).1 ≠ [] →
          ∃ e, (update_index false now batches st).1 = .error e))
    ∧ ((rebuild_index false now em batches backup st).2.versionFile
        = st.versionFile
      ∧ ∀ vi st2,
          rebuild_index false now em batches backup st ≠ (.ok vi, st2)) :=
  ⟨⟨congrArg VMState.versionFile
      (initialize_index_providerFail now em batches st).1,
    (initialize_index_providerFail now em batches st).2⟩,
   ⟨congrArg VMState.versionFile (update_index_fail now batches st).1,
    (update_index_fail now batches st).2⟩,
   (rebuild_index_fail now em batches backup st).1,
   (rebuild_index_fail now em batches backup st).2⟩

/-- C10: `update_index` on an existing index whose batches yield zero
chunk documents returns `{"added": 0}` successfully while leaving the
entire state unchanged — no provider call is made (the provider count is
untouched and the result does not depend on the provider behavior `p`),
the version record file is unchanged, and the version integer is not
incremented. -/
theorem update_empty_frame (p : Bool) (now : Nat)
    (batches : List BatchInput) (st : VMState)
    (hex : st.indexExists = true)
    (hempty : (processBatches batches).1 = []) :
    update_index p now batches st = (.ok .empty, st) := by
  rw [update_index]
  simp [hex, hempty]

/-- A concrete batch whose processing raises, yielding no documents. -/
def exFailBatch : BatchInput where
  name := "bad"
  result := .error "boom"

/-- Witness: C10 at a concrete input — an update over one failing batch on
a version-5 index returns `{"added": 0}` and changes nothing. -/
theorem update_empty_frame_witness :
    update_index false 4
        [exFailBatch]
        { indexExists := true, providerCount := 7,
          versionFile := some exVi5, backups := [] }
      = (.ok .empty,
        { indexExists := true, providerCount := 7,
          versionFile := some exVi5, backups := [] }) :=
  update_empty_frame false 4 [exFailBatch]
    { indexExists := true, providerCount := 7,
      versionFile := some exVi5, backups := [] } rfl rfl

/-- C9: running `update_index` twice with an identical batch list over an
existing index (the processor is a deterministic function of the immutable
stored batch) adds the same number n of chunk documents each time and
removes or deduplicates nothing, so each call reports `added = n` and
after the second call the version record's `document_count` exceeds its
pre-update value by exactly 2·n — double a single call's contribution. -/
theorem update_twice_doubles (now1 now2 : Nat) (batches : List BatchInput)
    (st : VMState) (vi : VersionInfo)
    (hex : st.indexExists = true) (hvf : st.versionFile = some vi)
    (hne : (processBatches batches).1 ≠ []) :
    ∃ st1 st2 vi2,
      update_index true now1 batches st
        = (.ok (.report (processBatches batches).1.length
            (vi.document_count + (processBatches batches).1.length)
            (processBatches batches).2), st1)
      ∧ update_index true now2 batches st1
        = (.ok (.report (processBatches batches).1.length
            (vi.document_count + 2 * (processBatches batches).1.length)
            (processBatches batches).2), st2)
      ∧ st2.versionFile = some vi2
      ∧ vi2.document_count
          = vi.document_count + 2 * (processBatches batches).1.length := by
  have h1 := update_index_ok now1 batches st vi hex hvf hne
  have h2 := update_index_ok now2 batches
    { st with
        providerCount := st.providerCount + (processBatches batches).1.length
        versionFile := some { vi with
          last_updated := some now1
          document_count := vi.document_count
            + (processBatches batches).1.length
          version := vi.version + 1
          last_operation := some "update"
          last_update_stats := some (processBatches batches).2 } }
    { vi with
        last_updated := some now1
        document_count := vi.document_count
          + (processBatches batches).1.length
        version := vi.version + 1
        last_operation := some "update"
        last_update_stats := some (processBatches batches).2 }
    hex rfl hne
  simp only at h2
  have harith : vi.document_count + (processBatches batches).1.length
      + (processBatches batches).1.length
      = vi.document_count + 2 * (processBatches batches).1.length := by
    omega
  rw [harith] at h2
  exact ⟨_, _, _, h1, h2, rfl, rfl⟩

/-- Witness: C9 at a concrete input — a one-chunk batch applied twice to a
version-5, seven-document index; each call adds 1 and the record ends at
7 + 2·1 documents. -/
theorem update_twice_doubles_witness :
    ∃ st1 st2 vi2,
      update_index true 4 [exBatch]
          { indexExists := true, providerCount := 7,
            versionFile := some exVi5, backups := [] }
        = (.ok (.report (processBatches [exBatch]).1.length
            (exVi5.document_count + (processBatches [exBatch]).1.length)
            (processBatches [exBatch]).2), st1)
      ∧ update_index true 5 [exBatch] st1
        = (.ok (.report (processBatches [exBatch]).1.length
            (exVi5.document_count + 2 * (processBatches [exBatch]).1.length)
            (processBatches [exBatch]).2), st2)
      ∧ st2.versionFile = some vi2
      ∧ vi2.document_count
          = exVi5.document_count + 2 * (processBatches [exBatch]).1.length :=
  update_twice_doubles 4 5 [exBatch]
    { indexExists := true, providerCount := 7,
      versionFile := some exVi5, backups := [] } exVi5 rfl rfl
    (by simp [processBatches, exBatch])

/-- Two concrete well-formed store calls for the witness. -/
def exCalls : List StoreCall :=
  [{ document_id := "a", content := .str "hello", metadata := exMeta,
     file_extension := "txt", now := 1 },
   { document_id := "b", content := .jsonDict [("k", .str "v")],
     metadata := exMeta, file_extension := "json", now := 2 }]

/-- Witness: the amended C4 at a concrete input — a fresh slack batch and
two well-formed store calls, neither aliasing the manifest file. -/
theorem create_batch_then_stores_manifest_witness :
    (manifestDocs (runStores
          (create_ingestion_batch .slack (some "general") 0).2 exCalls)
        = some (exCalls.map StoreCall.entry)
      ∧ (exCalls.map StoreCall.entry).length = exCalls.length)
    ∧ ∀ (b : BatchDir) (ds : List JValue) (c : StoreCall),
        lookupFile b.files "metadata.json"
          = some (.json (manifestState .slack (some "general") 0 ds)) →
        c.writable = true → c.contentFileName ≠ "metadata.json" →
        (store_raw_document b c.document_id c.content c.metadata
            c.file_extension c.now).1 = .ok c.contentFileName
        ∧ manifestDocs (store_raw_document b c.document_id c.content
            c.metadata c.file_extension c.now).2 = some (ds ++ [c.entry]) :=
  create_batch_then_stores_manifest .slack (some "general") 0 exCalls
    (by decide)
